import Mathlib

/-!
Verification of the AutomatedGradingSystem repository (src/main.py, src/doctopdf.py)
against its natural-language specification.

The development shallowly embeds the Python source:
* Python scalar values that can occur in a result row are the type `AGS.PyVal`
  (ints, floats, strings, booleans, None).  Python floats are modelled as exact
  rationals; every grade value the spec admits ({0, 0.5, 1}) and every sum of
  such values is exactly representable as an IEEE double, so on that domain the
  model is exact.
* Python dicts (the result rows and the parsed exercise objects) are association
  lists `AGS.Dict` with insertion-order semantics: assigning to an existing key
  keeps its position, assigning a fresh key appends it, matching CPython dicts.
* The functions `scan_folder`, `_flatten_results_to_row`, `_get_csv_columns`,
  `grade_file`'s error paths, `process_submissions`'s per-file loop,
  `_perform_grading_and_update_row`, `retry_all_failed` and `normalize_name`
  are translated definition by definition; line numbers in doc comments refer
  to src/main.py unless stated otherwise.
-/

namespace AGS

/-- A Python scalar value as it can appear in a result row or in a parsed JSON
exercise object.  Floats are modelled as exact rationals (see module comment). -/
inductive PyVal where
  | vint (n : ℤ)
  | vfloat (q : ℚ)
  | vstr (s : String)
  | vbool (b : Bool)
  | vnone
  deriving DecidableEq

/-- Decimal digit character, `48 = '0'`. -/
def natDigitChar (n : ℕ) : Char := Char.ofNat (48 + n)

/-- Digits of `n` in base 10, most significant first; fuel-structural so that
the kernel can evaluate it. -/
def natDigitsAux : ℕ → ℕ → List Char
  | 0, _ => []
  | _ + 1, 0 => []
  | fuel + 1, n => natDigitsAux fuel (n / 10) ++ [natDigitChar (n % 10)]

/-- Python `str` of a non-negative integer. -/
def natRepr (n : ℕ) : String :=
  if n = 0 then "0" else String.mk (natDigitsAux (n + 1) n)

/-- Python `str` of an int. -/
def intRepr (i : ℤ) : String :=
  if i < 0 then "-" ++ natRepr i.natAbs else natRepr i.natAbs

/-- `decDigits q fuel = some (m, k)` when `q = m / 10^k` with `k` minimal
(within `fuel` steps); this is the terminating decimal expansion of `q`. -/
def decDigits : ℕ → ℚ → Option (ℤ × ℕ)
  | 0, q => if q.den = 1 then some (q.num, 0) else Option.none
  | fuel + 1, q =>
    if q.den = 1 then some (q.num, 0)
    else
      match decDigits fuel (q * 10) with
      | some (m, k) => some (m, k + 1)
      | Option.none => Option.none

/-- Render `m / 10^k` the way Python `str` renders the corresponding float:
`renderDec 15 1 = "1.5"`, `renderDec 2 0 = "2.0"`, `renderDec 5 1 = "0.5"`. -/
def renderDec (m : ℤ) (k : ℕ) : String :=
  if k = 0 then intRepr m ++ ".0"
  else
    let sign := if m < 0 then "-" else ""
    let ds := (natRepr m.natAbs).data
    let padded := if ds.length ≤ k then List.replicate (k + 1 - ds.length) '0' ++ ds else ds
    sign ++ String.mk (padded.take (padded.length - k)) ++ "." ++
      String.mk (padded.drop (padded.length - k))

/-- Python `str` of a float, for floats with a terminating decimal expansion
(every IEEE double has one; Python's repr prints the shortest round-tripping
decimal, which for short decimals such as grade sums is the expansion itself).
Scientific notation for very large/small magnitudes is not modelled. -/
def floatRepr (q : ℚ) : String :=
  match decDigits 1100 q with
  | some (m, k) => renderDec m k
  | Option.none => "<nonterminating>"

/-- Python `str()` / f-string conversion of a value. -/
def pyStr : PyVal → String
  | .vint n => intRepr n
  | .vfloat q => floatRepr q
  | .vstr s => s
  | .vbool b => if b then "True" else "False"
  | .vnone => "None"

/-- Python truthiness of a value. -/
def truthy : PyVal → Bool
  | .vint n => decide (n ≠ 0)
  | .vfloat q => decide (q ≠ 0)
  | .vstr s => decide (s ≠ "")
  | .vbool b => b
  | .vnone => false

/-- `isinstance(v, (int, float))` — note that Python `bool` is a subclass of
`int`, so booleans pass this check. -/
def isNumeric : PyVal → Bool
  | .vint _ => true
  | .vfloat _ => true
  | .vbool _ => true
  | _ => false

/-- Python `+` on numbers, as used by `total_score += grade` (line 171):
int+int stays int, any float makes the result float, bools count as 0/1.
The first argument is always an int or a float (the accumulator starts at
int `0`); a non-numeric second argument never reaches this function because
line 170 guards with `isinstance`. -/
def pyAdd : PyVal → PyVal → PyVal
  | .vint a, .vint b => .vint (a + b)
  | .vint a, .vfloat b => .vfloat (a + b)
  | .vint a, .vbool b => .vint (a + (if b then 1 else 0))
  | .vfloat a, .vint b => .vfloat (a + b)
  | .vfloat a, .vfloat b => .vfloat (a + b)
  | .vfloat a, .vbool b => .vfloat (a + (if b then 1 else 0))
  | a, _ => a

/-- The rational value of a numeric `PyVal` (0 for non-numbers). -/
def valQ : PyVal → ℚ
  | .vint n => (n : ℚ)
  | .vfloat q => q
  | .vbool b => if b then 1 else 0
  | _ => 0

/-- Whether a value is an int or a float (the shapes the `total_score`
accumulator can have). -/
def isIntOrFloat : PyVal → Bool
  | .vint _ => true
  | .vfloat _ => true
  | _ => false

theorem isIntOrFloat_pyAdd {a b : PyVal} (ha : isIntOrFloat a = true) :
    isIntOrFloat (pyAdd a b) = true := by
  cases a <;> cases b <;> simp_all [isIntOrFloat, pyAdd]

theorem valQ_pyAdd {a b : PyVal} (ha : isIntOrFloat a = true)
    (hb : isNumeric b = true) : valQ (pyAdd a b) = valQ a + valQ b := by
  cases a <;> cases b <;> simp_all [isIntOrFloat, isNumeric, pyAdd, valQ]

/-! ### Python dicts as association lists -/

/-- A Python dict with string keys, in insertion order. -/
abbrev Dict := List (String × PyVal)

/-- Dict lookup with a default, as in `d.get(k, dflt)` (also models `d[k]`
when the key is known to be present). -/
def dget : Dict → String → PyVal → PyVal
  | [], _, dflt => dflt
  | (k₁, v₁) :: rest, k, dflt => if k₁ = k then v₁ else dget rest k dflt

/-- Dict assignment `d[k] = v`: replaces the value in place if the key exists,
appends the pair otherwise (CPython insertion-order semantics). -/
def dset : Dict → String → PyVal → Dict
  | [], k, v => [(k, v)]
  | (k₁, v₁) :: rest, k, v => if k₁ = k then (k, v) :: rest else (k₁, v₁) :: dset rest k v

/-- The keys of a dict, in order. -/
def dkeys (d : Dict) : List String := d.map Prod.fst

theorem dget_dset_self : ∀ (d : Dict) (k : String) (v dflt : PyVal),
    dget (dset d k v) k dflt = v
  | [], k, v, dflt => by simp [dset, dget]
  | (k₁, v₁) :: rest, k, v, dflt => by
    by_cases h : k₁ = k
    · simp [dset, dget, h]
    · simp [dset, dget, h, dget_dset_self rest k v dflt]

theorem dget_dset_ne : ∀ (d : Dict) {k k' : String} (v dflt : PyVal), k' ≠ k →
    dget (dset d k v) k' dflt = dget d k' dflt
  | [], k, k', v, dflt, h => by simp [dset, dget, Ne.symm h]
  | (k₁, v₁) :: rest, k, k', v, dflt, h => by
    by_cases h₁ : k₁ = k
    · subst h₁
      simp [dset, dget, Ne.symm h]
    · by_cases h₂ : k₁ = k' <;>
        simp [dset, dget, h, h₁, h₂, Ne.symm h, dget_dset_ne rest v dflt h]

theorem mem_dkeys_dset : ∀ (d : Dict) (k k' : String) (v : PyVal),
    k' ∈ dkeys (dset d k v) ↔ k' = k ∨ k' ∈ dkeys d
  | [], k, k', v => by simp [dset, dkeys]
  | (k₁, v₁) :: rest, k, k', v => by
    by_cases h : k₁ = k
    · subst h
      simp [dset, dkeys]
    · simp only [dset, if_neg h, dkeys, List.map_cons, List.mem_cons]
      have ih := mem_dkeys_dset rest k k' v
      simp only [dkeys] at ih
      rw [ih]
      tauto

/-! ### String helpers (kernel-computable versions of startswith) -/

/-- `chListHasPre pat l` is true when `pat` is an initial segment of `l`. -/
def chListHasPre : List Char → List Char → Bool
  | [], _ => true
  | _ :: _, [] => false
  | c :: cs, d :: ds => (c == d) && chListHasPre cs ds

/-- Python `s.startswith(pat)`. -/
def strStarts (s pat : String) : Bool := chListHasPre pat.data s.data

theorem chListHasPre_append (p rest : List Char) : chListHasPre p (p ++ rest) = true := by
  induction p with
  | nil => rfl
  | cons c cs ih => simp [chListHasPre, ih]

/-- A string extended on the right still starts with itself as a pattern. -/
theorem strStarts_append (p t : String) : strStarts (p ++ t) p = true := by
  have h : (p ++ t).data = p.data ++ t.data := String.data_append p t
  simp [strStarts, h, chListHasPre_append]

/-- If `k` starts with `pat` and the literal `c` does not, then `k ≠ c`. -/
theorem ne_of_strStarts {k c pat : String} (hk : strStarts k pat = true)
    (hc : strStarts c pat = false) : k ≠ c := by
  intro h
  rw [h, hc] at hk
  exact Bool.false_ne_true hk

/-- The characters Python `str.strip()` removes. -/
def isSpaceCh (c : Char) : Bool :=
  c = ' ' ∨ c = '\t' ∨ c = '\n' ∨ c = '\r' ∨ c = '\x0b' ∨ c = '\x0c'

/-- Python `s.strip()`. -/
def pyStrip (s : String) : String :=
  String.mk (((s.data.dropWhile isSpaceCh).reverse.dropWhile isSpaceCh).reverse)

/-- Helper for `split(',')`: split a char list at commas. -/
def splitCommaAux : List Char → List Char → List (List Char)
  | [], cur => [cur.reverse]
  | c :: rest, cur =>
    if c = ',' then cur.reverse :: splitCommaAux rest [] else splitCommaAux rest (c :: cur)

/-- Python `s.split(',')`. -/
def splitComma (s : String) : List String :=
  (splitCommaAux s.data []).map String.mk

/-! ### `_flatten_results_to_row` (src/main.py lines 145-190) -/

/-- `ex.get('exercise_id', 'N/A')` (line 164). -/
def exId (ex : Dict) : PyVal := dget ex "exercise_id" (.vstr "N/A")

/-- `ex.get('is_attempted', False)` (line 165). -/
def exAttempted (ex : Dict) : PyVal := dget ex "is_attempted" (.vbool false)

/-- `ex.get('grade', 0)` (line 166). -/
def exGrade (ex : Dict) : PyVal := dget ex "grade" (.vint 0)

/-- `ex.get('feedback', 'No feedback.')` (line 167). -/
def exFeedback (ex : Dict) : PyVal := dget ex "feedback" (.vstr "No feedback.")

/-- The dynamic CSV key `f"ex_{exercise_id}_grade"` (line 181). -/
def exGradeKey (ex : Dict) : String := "ex_" ++ pyStr (exId ex) ++ "_grade"

/-- The dynamic CSV key `f"ex_{exercise_id}_feedback"` (line 182). -/
def exFeedbackKey (ex : Dict) : String := "ex_" ++ pyStr (exId ex) ++ "_feedback"

/-- The dynamic CSV key `f"ex_{exercise_id}_attempted"` (line 183). -/
def exAttemptedKey (ex : Dict) : String := "ex_" ++ pyStr (exId ex) ++ "_attempted"

/-- The UI feedback block `f"**Exercise {exercise_id} (Grade: {grade}):**\n{feedback}\n"`
(line 178). -/
def feedbackBlock (ex : Dict) : String :=
  "**Exercise " ++ pyStr (exId ex) ++ " (Grade: " ++ pyStr (exGrade ex) ++ "):**\n" ++
    pyStr (exFeedback ex) ++ "\n"

/-- The mutable state of the `for ex in result_data` loop (lines 150-183). -/
structure LoopState where
  total : PyVal
  maxScore : ℕ
  allAttempted : Bool
  feedbackParts : List String
  row : Dict

/-- One iteration of the loop body (lines 163-183). -/
def flattenStep (st : LoopState) (ex : Dict) : LoopState where
  total := if isNumeric (exGrade ex) then pyAdd st.total (exGrade ex) else st.total
  maxScore := st.maxScore + 1
  allAttempted := st.allAttempted && truthy (exAttempted ex)
  feedbackParts := st.feedbackParts ++ [feedbackBlock ex]
  row := dset (dset (dset st.row (exGradeKey ex) (exGrade ex))
    (exFeedbackKey ex) (exFeedback ex)) (exAttemptedKey ex) (exAttempted ex)

/-- The whole loop. -/
def flattenLoop (data : List Dict) (st : LoopState) : LoopState :=
  data.foldl flattenStep st

/-- Initial loop state: `total_score = 0` (an int), `max_score = 0`,
`all_attempted = True`, `feedback_parts = []` (lines 150-153). -/
def initState (row : Dict) : LoopState :=
  ⟨.vint 0, 0, true, [], row⟩

/-- `_flatten_results_to_row(result_data, file_result_dict)` (lines 145-190),
returning the mutated dict. -/
def flatten_results_to_row (result_data : List Dict) (row : Dict) : Dict :=
  if result_data.isEmpty then
    dset (dset (dset (dset (dset row
      "grade" (.vstr "0 / 0"))
      "feedback" (.vstr "No exercises found or graded."))
      "is_complete" (.vbool false))
      "total_grade" (.vint 0))
      "max_score" (.vint 0)
  else
    let st := flattenLoop result_data (initState row)
    dset (dset (dset (dset (dset st.row
      "grade" (.vstr (pyStr st.total ++ " / " ++ natRepr st.maxScore)))
      "feedback" (.vstr (String.intercalate "\n" st.feedbackParts)))
      "is_complete" (.vbool st.allAttempted))
      "total_grade" st.total)
      "max_score" (.vint st.maxScore)

/-- The dynamic keys written by the loop for a list of exercise objects. -/
def exKeysList (data : List Dict) : List String :=
  data.flatMap fun ex => [exGradeKey ex, exFeedbackKey ex, exAttemptedKey ex]

theorem flattenLoop_maxScore (data : List Dict) (st : LoopState) :
    (flattenLoop data st).maxScore = st.maxScore + data.length := by
  induction data generalizing st with
  | nil => simp [flattenLoop]
  | cons ex rest ih =>
    simp only [flattenLoop, List.foldl_cons] at *
    rw [ih]
    simp [flattenStep, List.length_cons]
    omega

theorem flattenLoop_allAttempted (data : List Dict) (st : LoopState) :
    (flattenLoop data st).allAttempted =
      (st.allAttempted && data.all fun ex => truthy (exAttempted ex)) := by
  induction data generalizing st with
  | nil => simp [flattenLoop]
  | cons ex rest ih =>
    simp only [flattenLoop, List.foldl_cons] at *
    rw [ih]
    simp [flattenStep, Bool.and_assoc]

theorem flattenLoop_total_shape (data : List Dict) (st : LoopState)
    (h : isIntOrFloat st.total = true) :
    isIntOrFloat (flattenLoop data st).total = true := by
  induction data generalizing st with
  | nil => simpa [flattenLoop] using h
  | cons ex rest ih =>
    simp only [flattenLoop, List.foldl_cons] at *
    refine ih _ ?_
    by_cases hn : isNumeric (exGrade ex) = true <;>
      simp [flattenStep, hn, h, isIntOrFloat_pyAdd]

theorem flattenLoop_total_valQ (data : List Dict) (st : LoopState)
    (h : isIntOrFloat st.total = true) :
    valQ (flattenLoop data st).total =
      valQ st.total +
        (((data.filter fun ex => isNumeric (exGrade ex)).map
          fun ex => valQ (exGrade ex)).sum) := by
  induction data generalizing st with
  | nil => simp [flattenLoop]
  | cons ex rest ih =>
    simp only [flattenLoop, List.foldl_cons] at *
    by_cases hn : isNumeric (exGrade ex) = true
    · rw [ih _ (by simp [flattenStep, hn, h, isIntOrFloat_pyAdd])]
      simp [flattenStep, hn, valQ_pyAdd h hn]
      ring
    · rw [ih _ (by simp [flattenStep, hn, h])]
      simp [flattenStep, hn]

theorem flattenLoop_row_keys (data : List Dict) (st : LoopState) {k : String}
    (hk : k ∈ dkeys (flattenLoop data st).row) :
    k ∈ dkeys st.row ∨ k ∈ exKeysList data := by
  induction data generalizing st with
  | nil => exact Or.inl hk
  | cons ex rest ih =>
    simp only [flattenLoop, List.foldl_cons] at hk
    rcases ih _ hk with h | h
    · simp only [flattenStep, mem_dkeys_dset] at h
      rcases h with h | h | h | h
      · exact Or.inr (by simp [exKeysList, h])
      · exact Or.inr (by simp [exKeysList, h])
      · exact Or.inr (by simp [exKeysList, h])
      · exact Or.inl h
    · exact Or.inr (by simp only [exKeysList, List.flatMap_cons] at *; simp [h])

/-! ### Disjointness of the dynamic keys

The three per-exercise key families end in the distinct suffixes `_grade`,
`_feedback`, `_attempted`; keys from different families never collide, and
keys within a family collide only for equal rendered exercise ids. -/

theorem strApp_ne_of_last (su sv : String) (cu cv : Char) (lu lv : List Char)
    (h₁ : su.data.reverse = cu :: lu) (h₂ : sv.data.reverse = cv :: lv) (h₃ : cu ≠ cv)
    (a b : String) : a ++ su ≠ b ++ sv := by
  intro h
  have hd : (a ++ su).data = (b ++ sv).data := by rw [h]
  rw [String.data_append, String.data_append] at hd
  have hr := congrArg List.reverse hd
  rw [List.reverse_append, List.reverse_append, h₁, h₂] at hr
  simp only [List.cons_append] at hr
  injection hr with hc _
  exact h₃ hc

theorem strApp_cancel_right (a b su : String) (h : a ++ su = b ++ su) : a = b := by
  have hd : a.data ++ su.data = b.data ++ su.data := by
    rw [← String.data_append, ← String.data_append, h]
  have h3 := List.append_cancel_right hd
  cases a
  cases b
  exact congrArg String.mk h3

theorem strApp_cancel_left (p a b : String) (h : p ++ a = p ++ b) : a = b := by
  have hd : p.data ++ a.data = p.data ++ b.data := by
    rw [← String.data_append, ← String.data_append, h]
  have h3 := List.append_cancel_left hd
  cases a
  cases b
  exact congrArg String.mk h3

theorem key_grade_ne_feedback (a b : String) : a ++ "_grade" ≠ b ++ "_feedback" :=
  strApp_ne_of_last "_grade" "_feedback" 'e' 'k'
    ['d', 'a', 'r', 'g', '_'] ['c', 'a', 'b', 'd', 'e', 'e', 'f', '_']
    (by decide) (by decide) (by decide) a b

theorem key_grade_ne_attempted (a b : String) : a ++ "_grade" ≠ b ++ "_attempted" :=
  strApp_ne_of_last "_grade" "_attempted" 'e' 'd'
    ['d', 'a', 'r', 'g', '_'] ['e', 't', 'p', 'm', 'e', 't', 't', 'a', '_']
    (by decide) (by decide) (by decide) a b

theorem key_feedback_ne_attempted (a b : String) : a ++ "_feedback" ≠ b ++ "_attempted" :=
  strApp_ne_of_last "_feedback" "_attempted" 'k' 'd'
    ['c', 'a', 'b', 'd', 'e', 'e', 'f', '_'] ['e', 't', 'p', 'm', 'e', 't', 't', 'a', '_']
    (by decide) (by decide) (by decide) a b

theorem exGradeKey_eq (ex : Dict) :
    exGradeKey ex = ("ex_" ++ pyStr (exId ex)) ++ "_grade" := by
  rw [exGradeKey, String.append_assoc]

theorem exFeedbackKey_eq (ex : Dict) :
    exFeedbackKey ex = ("ex_" ++ pyStr (exId ex)) ++ "_feedback" := by
  rw [exFeedbackKey, String.append_assoc]

theorem exAttemptedKey_eq (ex : Dict) :
    exAttemptedKey ex = ("ex_" ++ pyStr (exId ex)) ++ "_attempted" := by
  rw [exAttemptedKey, String.append_assoc]

theorem exFeedbackKey_ne_gradeKey (e₁ e₂ : Dict) : exFeedbackKey e₁ ≠ exGradeKey e₂ := by
  rw [exFeedbackKey_eq, exGradeKey_eq]
  exact Ne.symm (key_grade_ne_feedback _ _)

theorem exAttemptedKey_ne_gradeKey (e₁ e₂ : Dict) : exAttemptedKey e₁ ≠ exGradeKey e₂ := by
  rw [exAttemptedKey_eq, exGradeKey_eq]
  exact Ne.symm (key_grade_ne_attempted _ _)

theorem exGradeKey_ne_of_id_ne {e₁ e₂ : Dict} (h : pyStr (exId e₁) ≠ pyStr (exId e₂)) :
    exGradeKey e₁ ≠ exGradeKey e₂ := by
  rw [exGradeKey_eq, exGradeKey_eq]
  intro hEq
  exact h (strApp_cancel_left "ex_" _ _ (strApp_cancel_right _ _ "_grade" hEq))

/-- Every dynamic key starts with `ex_`. -/
theorem exGradeKey_starts (ex : Dict) : strStarts (exGradeKey ex) "ex_" = true := by
  rw [exGradeKey]
  exact strStarts_append "ex_" _

theorem exFeedbackKey_starts (ex : Dict) : strStarts (exFeedbackKey ex) "ex_" = true := by
  rw [exFeedbackKey]
  exact strStarts_append "ex_" _

theorem exAttemptedKey_starts (ex : Dict) : strStarts (exAttemptedKey ex) "ex_" = true := by
  rw [exAttemptedKey]
  exact strStarts_append "ex_" _

/-! ### What the loop leaves in the row -/

/-- A key no exercise of `data` writes is untouched by the loop. -/
theorem flattenLoop_row_get_unused (data : List Dict) (st : LoopState) (k : String)
    (dflt : PyVal)
    (h : ∀ ex ∈ data, exGradeKey ex ≠ k ∧ exFeedbackKey ex ≠ k ∧ exAttemptedKey ex ≠ k) :
    dget (flattenLoop data st).row k dflt = dget st.row k dflt := by
  induction data generalizing st with
  | nil => rfl
  | cons ex rest ih =>
    simp only [flattenLoop, List.foldl_cons]
    have hx := h ex (List.mem_cons_self ex rest)
    rw [show List.foldl flattenStep (flattenStep st ex) rest =
      flattenLoop rest (flattenStep st ex) from rfl]
    rw [ih _ fun e he => h e (List.mem_cons_of_mem ex he)]
    simp only [flattenStep]
    rw [dget_dset_ne _ _ _ (Ne.symm hx.2.2), dget_dset_ne _ _ _ (Ne.symm hx.2.1),
      dget_dset_ne _ _ _ (Ne.symm hx.1)]

/-- After the loop, the `ex_<id>_grade` key of an exercise `e` holds `e`'s raw
grade value, provided no later exercise writes the same key. -/
theorem flattenLoop_row_get_grade (l₁ l₂ : List Dict) (e : Dict) (st : LoopState)
    (dflt : PyVal)
    (h₂ : ∀ ex ∈ l₂, exGradeKey ex ≠ exGradeKey e) :
    dget (flattenLoop (l₁ ++ e :: l₂) st).row (exGradeKey e) dflt = exGrade e := by
  simp only [flattenLoop, List.foldl_append, List.foldl_cons]
  rw [show List.foldl flattenStep (flattenStep (List.foldl flattenStep st l₁) e) l₂ =
    flattenLoop l₂ (flattenStep (List.foldl flattenStep st l₁) e) from rfl]
  rw [flattenLoop_row_get_unused l₂ _ _ _ fun ex hx =>
    ⟨h₂ ex hx, exFeedbackKey_ne_gradeKey ex e, exAttemptedKey_ne_gradeKey ex e⟩]
  simp only [flattenStep]
  rw [dget_dset_ne _ _ _ (Ne.symm (exAttemptedKey_ne_gradeKey e e)),
    dget_dset_ne _ _ _ (Ne.symm (exFeedbackKey_ne_gradeKey e e)),
    dget_dset_self]

/-! ### Grading outcomes and row building (src/main.py lines 40-135, 209-264) -/

/-- The dictionary returned by `grade_file`: `{'status': 'success', 'data': ...}`
or `{'status': 'failed', 'error': ...}`, as a tagged variant. -/
inductive GradeOutcome where
  | success (data : List Dict)
  | failure (error : String)
  deriving DecidableEq

/-- Lines 108-122 of `grade_file`: a parsed JSON list becomes a success outcome
unless it is empty, which becomes a failure — so a success outcome always
carries a non-empty list. -/
def outcomeOfParsedList (data : List Dict) : GradeOutcome :=
  if data.isEmpty then .failure "Grader returned an empty result list." else .success data

/-- `grade_file` when the upload raises: `upload_to_gemini` wraps the message as
`"Upload failed: " + str(e)` (lines 37-38) and the except branch at lines
131-135 returns it as a failed outcome. -/
def gradeFileUploadRaised (msg : String) : GradeOutcome :=
  .failure ("Upload failed: " ++ msg)

/-- `os.path.basename`: the part after the last path separator (`/` or, on the
repository's target platform, `\`). -/
def basename (p : String) : String :=
  String.mk (p.data.foldl (fun acc c => if c = '/' ∨ c = '\\' then [] else acc ++ [c]) [])

/-- The retry-button label (line 247). -/
def retryLabel : String := "🔄 Retry"

/-- The base row built for each file before the outcome is applied
(lines 243-248). -/
def initRow (file_path timestamp : String) : Dict :=
  [("file_path", .vstr file_path), ("file_name", .vstr (basename file_path)),
   ("timestamp", .vstr timestamp), ("retry_button", .vstr retryLabel)]

/-- Applying a grading outcome to a row: the success branch (lines 250-254)
sets status and error then flattens the data into the row; the failure branch
(lines 255-262) sets the fixed failure fields.  The same branch structure is
repeated verbatim in `_perform_grading_and_update_row` (lines 309-321). -/
def applyOutcome (row : Dict) : GradeOutcome → Dict
  | .success data =>
    flatten_results_to_row data
      (dset (dset row "status" (.vstr "success")) "error" (.vstr ""))
  | .failure err =>
    dset (dset (dset (dset (dset (dset (dset row
      "status" (.vstr "failed"))
      "error" (.vstr err))
      "grade" (.vstr ""))
      "feedback" (.vstr ""))
      "is_complete" (.vbool false))
      "total_grade" (.vint 0))
      "max_score" (.vint 0)

/-- The per-file loop of `process_submissions` (lines 234-264): every file is
graded and contributes exactly one row, independently of the other files.
`grade` abstracts `grade_file(client, ·, exercise_problem)`. -/
def processLoop (grade : String → GradeOutcome) (ts : String)
    (files : List String) : List Dict :=
  files.map fun fp => applyOutcome (initRow fp ts) (grade fp)

/-! ### The retry subsystem (src/main.py lines 290-325, 381-431) -/

/-- Lines 304-307: remove every key starting with `ex_` from the row. -/
def clearExKeys (row : Dict) : Dict :=
  row.filter fun p => !(strStarts p.1 "ex_")

/-- `_perform_grading_and_update_row` acting on one row (lines 290-325): clear
the stale dynamic keys, apply the new outcome, stamp the current time. -/
def perform_grading_and_update_row (row : Dict) (outcome : GradeOutcome)
    (ts : String) : Dict :=
  dset (applyOutcome (clearExKeys row) outcome) "timestamp" (.vstr ts)

/-- `row['status'] == 'failed'` (line 395). -/
def isFailedRow (row : Dict) : Bool :=
  decide (dget row "status" .vnone = .vstr "failed")

/-- `row['file_path']` (line 296), the string handed to `grade_file`. -/
def rowFilePath (row : Dict) : String := pyStr (dget row "file_path" .vnone)

/-- What `retry_all_failed` hands back and what it did on the way: the status
message, the (possibly mutated) table, whether the CSV file was rewritten, and
how many grading calls were made. -/
structure RetryAllOut where
  message : String
  table : List Dict
  persisted : Bool
  gradingCalls : ℕ
  deriving DecidableEq

/-- The retry loop of `retry_all_failed` (lines 403-413): each failed index is
re-graded in place and counted on success.  The `try/except` around the call is
unreachable in the model because the embedded call is total; grading failures
are already values (`GradeOutcome.failure`), not exceptions. -/
def retryLoop (grade : String → GradeOutcome) (ts : String) :
    List ℕ → List Dict → ℕ → List Dict × ℕ
  | [], results, cnt => (results, cnt)
  | i :: rest, results, cnt =>
    match results[i]? with
    | some row =>
      let outcome := grade (rowFilePath row)
      let newRow := perform_grading_and_update_row row outcome ts
      let cnt' := match outcome with
        | .success _ => cnt + 1
        | .failure _ => cnt
      retryLoop grade ts rest (results.set i newRow) cnt'
    | Option.none => retryLoop grade ts rest results cnt

/-- `retry_all_failed` (lines 381-431).  `csvDirExists` models the persistence
guard `csv_path and os.path.exists(os.path.dirname(csv_path))` (line 417).
An empty `api_key` models a falsy credential (line 383). -/
def retry_all_failed (api_key exercise_problem : String) (results : List Dict)
    (csvDirExists : Bool) (grade : String → GradeOutcome) (ts : String) :
    RetryAllOut :=
  if api_key = "" then ⟨"Please provide a Gemini API key", results, false, 0⟩
  else if pyStrip exercise_problem = "" then
    ⟨"Please ensure the exercise problem is still present", results, false, 0⟩
  else if results.isEmpty then ⟨"No results to retry.", results, false, 0⟩
  else
    let failed_indices := (List.range results.length).filter fun i =>
      match results[i]? with
      | some row => isFailedRow row
      | Option.none => false
    if failed_indices.isEmpty then
      ⟨"No failed submissions to retry.", results, false, 0⟩
    else
      let out := retryLoop grade ts failed_indices results 0
      ⟨"✅ Retried " ++ natRepr failed_indices.length ++ " files. Success: " ++
          natRepr out.2 ++ ", Failed: " ++ natRepr (failed_indices.length - out.2),
        out.1, csvDirExists, failed_indices.length⟩

/-! ### CSV persistence (src/main.py lines 193-206, 266-274, 415-420) -/

/-- The fixed core column order (lines 196-199). -/
def core_cols : List String :=
  ["file_path", "file_name", "status", "grade", "total_grade",
   "max_score", "is_complete", "error", "timestamp"]

/-- Union of key lists in first-appearance order. -/
def addCols (acc : List String) : List String → List String
  | [] => acc
  | k :: ks => if k ∈ acc then addCols acc ks else addCols (acc ++ [k]) ks

/-- The column set of `pd.DataFrame(results)` built from a list of dicts:
the union of the rows' keys, in first-appearance order. -/
def dataframeColumns (rows : List Dict) : List String :=
  rows.foldl (fun acc row => addCols acc (dkeys row)) []

/-- Code-point lexicographic comparison on char lists, the order Python uses
to compare strings. -/
def lexLeCh : List Char → List Char → Bool
  | [], _ => true
  | _ :: _, [] => false
  | c :: cs, d :: ds =>
    if c.toNat < d.toNat then true
    else if d.toNat < c.toNat then false
    else lexLeCh cs ds

/-- Python `s <= t` on strings. -/
def strLe (a b : String) : Bool := lexLeCh a.data b.data

/-- Stable insertion of `x` into a sorted list: `x` goes in front of the first
element it compares `<=` to. -/
def insertSorted (x : String) : List String → List String
  | [] => [x]
  | y :: ys => if strLe x y then x :: y :: ys else y :: insertSorted x ys

/-- Python `sorted` on a list of strings (a stable sort under `strLe`; on
strings any stable sort produces the same list Python does). -/
def sortStrings (l : List String) : List String := l.foldr insertSorted []

/-- `_get_csv_columns` (lines 193-206): the core columns that exist, in their
fixed order, followed by the `ex_*` columns in sorted order. -/
def get_csv_columns (all_columns : List String) : List String :=
  let dynamic_cols := sortStrings (all_columns.filter fun c => strStarts c "ex_")
  let final_core_cols := core_cols.filter fun c => c ∈ all_columns
  final_core_cols ++ dynamic_cols

/-- A persisted CSV: its header and one record per table row. -/
structure CsvFile where
  columns : List String
  records : List (List PyVal)
  deriving DecidableEq

/-- `df[df_columns].to_csv(...)` (lines 273-274 and 419-420): project every row
onto the selected columns; pandas fills a missing cell with NaN, modelled as
`vnone`. -/
def persistCsv (rows : List Dict) : CsvFile :=
  let cols := get_csv_columns (dataframeColumns rows)
  ⟨cols, rows.map fun row => cols.map fun c => dget row c .vnone⟩

/-! ### `scan_folder` (src/main.py lines 18-29) -/

/-- Python `s.endswith(pat)`. -/
def strEnds (s pat : String) : Bool := chListHasPre pat.data.reverse s.data.reverse

/-- ASCII lower-casing of a string, as `os.path.normcase` applies on the
platform this repository targets (Windows — cf. the backslash path splitting
in src/csvpostprocess.py), which is what makes glob's extension match
case-insensitive there. -/
def lowerStr (s : String) : String := String.mk (s.data.map Char.toLower)

/-- Extension normalization (lines 21-25): strip whitespace, prepend a dot if
missing. -/
def normalizeExt (ext : String) : String :=
  let e := pyStrip ext
  if strStarts e "." then e else "." ++ e

/-- `file_extensions.split(',')` followed by per-extension normalization. -/
def parseExtensions (file_extensions : String) : List String :=
  (splitComma file_extensions).map normalizeExt

/-- `glob.glob(os.path.join(folder, '**', '*' + ext), recursive=True)` over the
recursive listing `fs` of the folder: a path matches when its basename is not
hidden (`*` never matches a leading dot) and, case-folded, ends with the
case-folded extension. -/
def globMatches (fs : List String) (ext : String) : List String :=
  fs.filter fun p =>
    !(strStarts (basename p) ".") && strEnds (lowerStr (basename p)) (lowerStr ext)

/-- `scan_folder` (lines 18-29): accumulate the matches of each extension, then
return them sorted. -/
def scan_folder (fs : List String) (file_extensions : String) : List String :=
  sortStrings ((parseExtensions file_extensions).foldl
    (fun acc ext => acc ++ globMatches fs ext) [])

/-- Outcome of asking for a submission listing. -/
inductive ScanOutcome where
  | invalidDirectory (msg : String)
  | listing (files : List String)
  deriving DecidableEq

/-- The scanning entry of `process_submissions`: the guard at lines 214-215
composed with the scan at line 226.  A missing (or empty) root fails with the
invalid-directory message before any listing is attempted; `existing` models
`os.path.exists`. -/
def scanSubmissions (existing : List String) (fs : List String)
    (folder_path file_extensions : String) : ScanOutcome :=
  if folder_path = "" ∨ folder_path ∉ existing then
    .invalidDirectory "Please provide a valid folder path for submissions"
  else .listing (scan_folder fs file_extensions)

/-! ### `normalize_name` (src/doctopdf.py lines 7-31) -/

/-- `normalize_name`, with the library call `unicodedata.normalize('NFD', ·)`
abstracted as a per-character decomposition `nfd`.  (Canonical reordering of
combining marks never moves a base character, so the ASCII projection proved
below is unaffected by modelling the decomposition character-wise.)  The steps
are: replace `Đ`/`đ`, decompose, `encode('ascii','ignore')` — keep only code
points below 128 — and replace spaces with underscores. -/
def normalize_name (nfd : Char → List Char) (name : String) : String :=
  let s₁ := name.data.map fun c => if c = 'Đ' then 'D' else c
  let s₂ := s₁.map fun c => if c = 'đ' then 'd' else c
  let s₃ := s₂.flatMap nfd
  let s₄ := s₃.filter fun c => c.toNat < 128
  String.mk (s₄.map fun c => if c = ' ' then '_' else c)

/-! ### Helper lemmas about the built rows -/

/-- The aggregate fields a successful flatten leaves in the row. -/
theorem flatten_gets (data : List Dict) (row : Dict) (hne : data ≠ []) :
    dget (flatten_results_to_row data row) "max_score" .vnone = .vint data.length ∧
    dget (flatten_results_to_row data row) "total_grade" .vnone =
      (flattenLoop data (initState row)).total ∧
    dget (flatten_results_to_row data row) "is_complete" .vnone =
      .vbool (data.all fun ex => truthy (exAttempted ex)) ∧
    dget (flatten_results_to_row data row) "grade" .vnone =
      .vstr (pyStr (flattenLoop data (initState row)).total ++ " / " ++
        natRepr data.length) := by
  have hne2 : data.isEmpty = false := by
    cases data
    · exact absurd rfl hne
    · rfl
  rw [flatten_results_to_row]
  rw [hne2]
  simp only [Bool.false_eq_true, if_false]
  refine ⟨?_, ?_, ?_, ?_⟩
  · rw [dget_dset_self, flattenLoop_maxScore]
    simp [initState]
  · rw [dget_dset_ne _ _ _ (by decide), dget_dset_self]
  · rw [dget_dset_ne _ _ _ (by decide), dget_dset_ne _ _ _ (by decide), dget_dset_self,
      flattenLoop_allAttempted]
    simp [initState]
  · rw [dget_dset_ne _ _ _ (by decide), dget_dset_ne _ _ _ (by decide),
      dget_dset_ne _ _ _ (by decide), dget_dset_ne _ _ _ (by decide), dget_dset_self,
      flattenLoop_maxScore]
    simp [initState]

/-- The fields the failure branch (lines 255-262 / 314-321) leaves in the row. -/
theorem applyOutcome_failure_gets (row : Dict) (err : String) :
    dget (applyOutcome row (.failure err)) "status" .vnone = .vstr "failed" ∧
    dget (applyOutcome row (.failure err)) "error" .vnone = .vstr err ∧
    dget (applyOutcome row (.failure err)) "grade" .vnone = .vstr "" ∧
    dget (applyOutcome row (.failure err)) "is_complete" .vnone = .vbool false ∧
    dget (applyOutcome row (.failure err)) "total_grade" .vnone = .vint 0 ∧
    dget (applyOutcome row (.failure err)) "max_score" .vnone = .vint 0 := by
  refine ⟨?_, ?_, ?_, ?_, ?_, ?_⟩ <;> simp [applyOutcome, dget_dset_ne, dget_dset_self]

/-! ### Claim C1 -/

/-- **C1.** For every successful grading outcome whose parsed exercise list has
`n` entries with numeric grades, the row built from it has `max_score = n`,
`total_grade` = the sum of the entries' grade values, and `grade` equal to the
string `"<total_grade> / <max_score>"`. -/
theorem claim_C1 (data : List Dict) (row : Dict) (hne : data ≠ [])
    (hnum : ∀ ex ∈ data, isNumeric (exGrade ex) = true) :
    dget (flatten_results_to_row data row) "max_score" .vnone = .vint data.length ∧
    valQ (dget (flatten_results_to_row data row) "total_grade" .vnone) =
      (data.map fun ex => valQ (exGrade ex)).sum ∧
    dget (flatten_results_to_row data row) "grade" .vnone =
      .vstr (pyStr (dget (flatten_results_to_row data row) "total_grade" .vnone) ++
        " / " ++ natRepr data.length) := by
  obtain ⟨hmax, htot, hic, hgr⟩ := flatten_gets data row hne
  refine ⟨hmax, ?_, ?_⟩
  · rw [htot, flattenLoop_total_valQ data _ (by rfl)]
    rw [List.filter_eq_self.mpr hnum]
    simp [initState, valQ]
  · rw [hgr, htot]

/-- The concrete exercise list from the specification's scenario:
`[{id:"1",attempted:true,grade:1},{id:"2",attempted:false,grade:0}]`. -/
def scenarioExercises : List Dict :=
  [[("exercise_id", .vstr "1"), ("is_attempted", .vbool true), ("grade", .vint 1)],
   [("exercise_id", .vstr "2"), ("is_attempted", .vbool false), ("grade", .vint 0)]]

/-- **C1 witness**: the scenario list satisfies C1's hypotheses, and on it the
row carries `total_grade = 1`, `max_score = 2`, `grade = "1 / 2"` (and
`is_complete = false`). -/
theorem claim_C1_witness :
    (scenarioExercises ≠ [] ∧ ∀ ex ∈ scenarioExercises, isNumeric (exGrade ex) = true) ∧
    (dget (flatten_results_to_row scenarioExercises []) "max_score" .vnone =
        .vint scenarioExercises.length ∧
      valQ (dget (flatten_results_to_row scenarioExercises []) "total_grade" .vnone) =
        (scenarioExercises.map fun ex => valQ (exGrade ex)).sum ∧
      dget (flatten_results_to_row scenarioExercises []) "grade" .vnone =
        .vstr (pyStr (dget (flatten_results_to_row scenarioExercises [])
          "total_grade" .vnone) ++ " / " ++ natRepr scenarioExercises.length)) ∧
    dget (flatten_results_to_row scenarioExercises []) "total_grade" .vnone = .vint 1 ∧
    dget (flatten_results_to_row scenarioExercises []) "max_score" .vnone = .vint 2 ∧
    dget (flatten_results_to_row scenarioExercises []) "grade" .vnone = .vstr "1 / 2" ∧
    dget (flatten_results_to_row scenarioExercises []) "is_complete" .vnone = .vbool false :=
  ⟨⟨by decide, by decide⟩,
   claim_C1 scenarioExercises [] (by decide) (by decide),
   by decide, by decide, by decide, by decide⟩

/-! ### Claim C2 -/

/-- **C2.** For every row built from a successful grading outcome,
`is_complete` is true iff every exercise result has `is_attempted = true`;
a failure outcome always yields `is_complete = false`. -/
theorem claim_C2 (data : List Dict) (row : Dict) (err : String) (hne : data ≠ [])
    (hb : ∀ ex ∈ data, ∃ b, exAttempted ex = PyVal.vbool b) :
    (dget (applyOutcome row (.success data)) "is_complete" .vnone = .vbool true ↔
      ∀ ex ∈ data, exAttempted ex = .vbool true) ∧
    dget (applyOutcome row (.failure err)) "is_complete" .vnone = .vbool false := by
  have hs : dget (applyOutcome row (.success data)) "is_complete" .vnone =
      .vbool (data.all fun ex => truthy (exAttempted ex)) := by
    have h := (flatten_gets data
      (dset (dset row "status" (.vstr "success")) "error" (.vstr "")) hne).2.2.1
    simpa [applyOutcome] using h
  refine ⟨?_, ?_⟩
  · rw [hs]
    simp only [PyVal.vbool.injEq, List.all_eq_true]
    constructor
    · intro hall ex hex
      obtain ⟨b, hbex⟩ := hb ex hex
      have hx := hall ex hex
      rw [hbex] at hx ⊢
      rw [show truthy (PyVal.vbool b) = b from rfl] at hx
      rw [hx]
    · intro hall ex hex
      rw [hall ex hex]
      rfl
  · simp [applyOutcome, dget_dset_ne, dget_dset_self]

/-- **C2 witness**: instantiated at the scenario exercise list (whose second
entry is unattempted) and an arbitrary error message. -/
theorem claim_C2_witness :
    ((dget (applyOutcome [] (.success scenarioExercises)) "is_complete" .vnone =
        .vbool true ↔ ∀ ex ∈ scenarioExercises, exAttempted ex = .vbool true) ∧
      dget (applyOutcome [] (.failure "boom")) "is_complete" .vnone = .vbool false) ∧
    dget (applyOutcome [] (.success scenarioExercises)) "is_complete" .vnone =
      .vbool false :=
  ⟨claim_C2 scenarioExercises [] "boom" (by decide)
    (by decide),
   by decide⟩

/-! ### Claim C3 -/

/-- **C3.** A file whose grading attempt fails (e.g. the upload raises with
message `msg`) yields a row with `status = "failed"`, `total_grade = 0`,
`max_score = 0`, `grade = ""`, and an error field containing the raised message
verbatim; every other file of the batch still gets its own row (the loop builds
one row per file, each from its own grading outcome only). -/
theorem claim_C3 (files : List String) (grade : String → GradeOutcome)
    (ts msg : String) (i : ℕ) (hi : i < files.length)
    (hg : grade files[i] = gradeFileUploadRaised msg) :
    (processLoop grade ts files).length = files.length ∧
    (∀ j (hj : j < files.length),
      (processLoop grade ts files)[j]? =
        some (applyOutcome (initRow files[j] ts) (grade files[j]))) ∧
    dget (applyOutcome (initRow files[i] ts) (grade files[i])) "status" .vnone =
      .vstr "failed" ∧
    dget (applyOutcome (initRow files[i] ts) (grade files[i])) "error" .vnone =
      .vstr ("Upload failed: " ++ msg) ∧
    (∃ before after, "Upload failed: " ++ msg = before ++ msg ++ after) ∧
    dget (applyOutcome (initRow files[i] ts) (grade files[i])) "grade" .vnone =
      .vstr "" ∧
    dget (applyOutcome (initRow files[i] ts) (grade files[i])) "total_grade" .vnone =
      .vint 0 ∧
    dget (applyOutcome (initRow files[i] ts) (grade files[i])) "max_score" .vnone =
      .vint 0 := by
  rw [hg]
  obtain ⟨h1, h2, h3, _, h5, h6⟩ :=
    applyOutcome_failure_gets (initRow files[i] ts) ("Upload failed: " ++ msg)
  refine ⟨by simp [processLoop], ?_, h1, h2, ⟨"Upload failed: ", "", by simp⟩, h3, h5, h6⟩
  intro j hj
  simp [processLoop, List.getElem?_map, List.getElem?_eq_getElem hj]

/-- **C3 witness**: a two-file batch whose second file's upload raises `boom`. -/
theorem claim_C3_witness :
    (processLoop (fun _ => gradeFileUploadRaised "boom") "t" ["a.py", "b.py"]).length = 2 ∧
    dget (applyOutcome (initRow "b.py" "t") (gradeFileUploadRaised "boom"))
      "status" .vnone = .vstr "failed" ∧
    dget (applyOutcome (initRow "b.py" "t") (gradeFileUploadRaised "boom"))
      "error" .vnone = .vstr "Upload failed: boom" ∧
    dget (applyOutcome (initRow "b.py" "t") (gradeFileUploadRaised "boom"))
      "grade" .vnone = .vstr "" ∧
    dget (applyOutcome (initRow "b.py" "t") (gradeFileUploadRaised "boom"))
      "total_grade" .vnone = .vint 0 ∧
    dget (applyOutcome (initRow "b.py" "t") (gradeFileUploadRaised "boom"))
      "max_score" .vnone = .vint 0 := by
  have h := claim_C3 ["a.py", "b.py"] (fun _ => gradeFileUploadRaised "boom")
    "t" "boom" 1 (by decide) rfl
  exact ⟨h.1, h.2.2.1, h.2.2.2.1, h.2.2.2.2.2.1, h.2.2.2.2.2.2.1, h.2.2.2.2.2.2.2⟩

/-! ### Claim C4 -/

/-- The dynamic keys the new outcome introduces: those of its data list on
success, none on failure. -/
def newExKeys : GradeOutcome → List String
  | .success data => exKeysList data
  | .failure _ => []

/-- After `clearExKeys`, no key of the row starts with `ex_`. -/
theorem mem_dkeys_clearExKeys (row : Dict) (k : String)
    (h : k ∈ dkeys (clearExKeys row)) : strStarts k "ex_" = false := by
  simp only [dkeys, clearExKeys, List.mem_map] at h
  obtain ⟨p, hp, hpk⟩ := h
  rw [← hpk]
  have h2 := (List.mem_filter.mp hp).2
  simpa using h2

/-- Keys of a flattened row come from the base row, the dynamic keys of the
data, or the five aggregate fields. -/
theorem mem_dkeys_flatten (data : List Dict) (row : Dict) (k : String)
    (h : k ∈ dkeys (flatten_results_to_row data row)) :
    k ∈ dkeys row ∨ k ∈ exKeysList data ∨
      k ∈ (["grade", "feedback", "is_complete", "total_grade", "max_score"] :
        List String) := by
  rw [flatten_results_to_row] at h
  by_cases hemp : data.isEmpty = true
  · rw [hemp] at h
    simp only [if_true] at h
    simp only [mem_dkeys_dset] at h
    simp only [List.mem_cons, List.not_mem_nil, or_false]
    tauto
  · rw [Bool.not_eq_true] at hemp
    rw [hemp] at h
    simp only [Bool.false_eq_true, if_false, mem_dkeys_dset] at h
    rcases h with h | h | h | h | h | h
    · exact Or.inr (Or.inr (by simp [h]))
    · exact Or.inr (Or.inr (by simp [h]))
    · exact Or.inr (Or.inr (by simp [h]))
    · exact Or.inr (Or.inr (by simp [h]))
    · exact Or.inr (Or.inr (by simp [h]))
    · rcases flattenLoop_row_keys data (initState row) h with h2 | h2
      · exact Or.inl h2
      · exact Or.inr (Or.inl h2)

/-- **C4.** On every retry of a row, all previously present `ex_*` keys are
removed before the new grading result is applied: any `ex_*` key of the updated
row belongs to the new outcome's own dynamic key set (which is empty for a
failure), so no dynamic key of a prior attempt survives. -/
theorem claim_C4 (row : Dict) (outcome : GradeOutcome) (ts k : String)
    (hk : strStarts k "ex_" = true)
    (hmem : k ∈ dkeys (perform_grading_and_update_row row outcome ts)) :
    k ∈ newExKeys outcome := by
  rw [perform_grading_and_update_row, mem_dkeys_dset] at hmem
  rcases hmem with h | h
  · exact absurd h (ne_of_strStarts hk (by decide))
  cases outcome with
  | failure err =>
    simp only [applyOutcome, mem_dkeys_dset] at h
    rcases h with h | h | h | h | h | h | h | h
    · exact absurd h (ne_of_strStarts hk (by decide))
    · exact absurd h (ne_of_strStarts hk (by decide))
    · exact absurd h (ne_of_strStarts hk (by decide))
    · exact absurd h (ne_of_strStarts hk (by decide))
    · exact absurd h (ne_of_strStarts hk (by decide))
    · exact absurd h (ne_of_strStarts hk (by decide))
    · exact absurd h (ne_of_strStarts hk (by decide))
    · exact absurd (mem_dkeys_clearExKeys row k h) (by simp [hk])
  | success data =>
    simp only [applyOutcome] at h
    rcases mem_dkeys_flatten data _ k h with h2 | h2 | h2
    · simp only [mem_dkeys_dset] at h2
      rcases h2 with h2 | h2 | h2
      · exact absurd h2 (ne_of_strStarts hk (by decide))
      · exact absurd h2 (ne_of_strStarts hk (by decide))
      · exact absurd (mem_dkeys_clearExKeys row k h2) (by simp [hk])
    · exact h2
    · simp only [List.mem_cons, List.not_mem_nil, or_false] at h2
      rcases h2 with h2 | h2 | h2 | h2 | h2 <;>
        exact absurd h2 (ne_of_strStarts hk (by decide))

/-- **C4 witness**: a row holding a stale `ex_1_grade` key is retried with an
outcome whose only exercise id is `2`; the surviving `ex_*` key belongs to the
new outcome, and the stale key is gone. -/
theorem claim_C4_witness :
    strStarts "ex_2_grade" "ex_" = true ∧
    "ex_2_grade" ∈ dkeys (perform_grading_and_update_row
      [("ex_1_grade", PyVal.vint 1), ("status", PyVal.vstr "failed")]
      (.success [[("exercise_id", PyVal.vstr "2"), ("grade", PyVal.vint 1)]]) "t") ∧
    "ex_2_grade" ∈ newExKeys
      (.success [[("exercise_id", PyVal.vstr "2"), ("grade", PyVal.vint 1)]]) ∧
    "ex_1_grade" ∉ dkeys (perform_grading_and_update_row
      [("ex_1_grade", PyVal.vint 1), ("status", PyVal.vstr "failed")]
      (.success [[("exercise_id", PyVal.vstr "2"), ("grade", PyVal.vint 1)]]) "t") :=
  ⟨by decide, by decide,
   claim_C4 [("ex_1_grade", PyVal.vint 1), ("status", PyVal.vstr "failed")]
     (.success [[("exercise_id", PyVal.vstr "2"), ("grade", PyVal.vint 1)]])
     "t" "ex_2_grade" (by decide) (by decide),
   by decide⟩

/-! ### Claim C9 -/

/-- The grade key of an exercise in the data list keeps that exercise's raw
grade value through the aggregate writes at the end of the flatten. -/
theorem flatten_get_exGradeKey (l₁ l₂ : List Dict) (e : Dict) (row : Dict)
    (h₂ : ∀ ex ∈ l₂, exGradeKey ex ≠ exGradeKey e) :
    dget (flatten_results_to_row (l₁ ++ e :: l₂) row) (exGradeKey e) .vnone =
      exGrade e := by
  have hne2 : (l₁ ++ e :: l₂).isEmpty = false := by
    cases l₁ <;> rfl
  rw [flatten_results_to_row, hne2]
  simp only [Bool.false_eq_true, if_false]
  rw [dget_dset_ne _ _ _ (ne_of_strStarts (exGradeKey_starts e) (by decide)),
    dget_dset_ne _ _ _ (ne_of_strStarts (exGradeKey_starts e) (by decide)),
    dget_dset_ne _ _ _ (ne_of_strStarts (exGradeKey_starts e) (by decide)),
    dget_dset_ne _ _ _ (ne_of_strStarts (exGradeKey_starts e) (by decide)),
    dget_dset_ne _ _ _ (ne_of_strStarts (exGradeKey_starts e) (by decide))]
  exact flattenLoop_row_get_grade l₁ l₂ e _ _ h₂

/-- **C9.** An exercise entry whose grade value is not numeric contributes
nothing to `total_grade` (the total only sums the numeric grades, and dropping
the entry leaves the summed list unchanged), while `max_score` still counts it
and its raw grade value is still recorded under its `ex_<id>_grade` key; the
flatten never fails on such an entry. -/
theorem claim_C9 (l₁ l₂ : List Dict) (e : Dict) (row : Dict)
    (hids : ∀ ex ∈ l₂, pyStr (exId ex) ≠ pyStr (exId e))
    (hng : isNumeric (exGrade e) = false) :
    dget (flatten_results_to_row (l₁ ++ e :: l₂) row) "max_score" .vnone =
      .vint (l₁ ++ e :: l₂).length ∧
    valQ (dget (flatten_results_to_row (l₁ ++ e :: l₂) row) "total_grade" .vnone) =
      (((l₁ ++ e :: l₂).filter fun ex => isNumeric (exGrade ex)).map
        fun ex => valQ (exGrade ex)).sum ∧
    ((l₁ ++ e :: l₂).filter fun ex => isNumeric (exGrade ex)) =
      ((l₁ ++ l₂).filter fun ex => isNumeric (exGrade ex)) ∧
    dget (flatten_results_to_row (l₁ ++ e :: l₂) row) (exGradeKey e) .vnone =
      exGrade e := by
  have hne : (l₁ ++ e :: l₂) ≠ [] := by simp
  obtain ⟨hmax, htot, _, _⟩ := flatten_gets (l₁ ++ e :: l₂) row hne
  refine ⟨hmax, ?_, ?_, ?_⟩
  · rw [htot, flattenLoop_total_valQ _ _ (by rfl)]
    simp [initState, valQ]
  · rw [List.filter_append, List.filter_append, List.filter_cons]
    simp [hng]
  · exact flatten_get_exGradeKey l₁ l₂ e row fun ex hx =>
      exGradeKey_ne_of_id_ne (hids ex hx)

/-- **C9 witness**: a first exercise with the string grade `"abc"` followed by
a numeric one; the total only counts the numeric grade, `max_score` counts
both, and the raw string survives under `ex_1_grade`. -/
theorem claim_C9_witness :
    (dget (flatten_results_to_row
        ([] ++ [("exercise_id", PyVal.vstr "1"), ("grade", PyVal.vstr "abc")] ::
          [[("exercise_id", PyVal.vstr "2"), ("grade", PyVal.vint 1)]]) [])
        "max_score" .vnone = .vint 2 ∧
      dget (flatten_results_to_row
        ([] ++ [("exercise_id", PyVal.vstr "1"), ("grade", PyVal.vstr "abc")] ::
          [[("exercise_id", PyVal.vstr "2"), ("grade", PyVal.vint 1)]]) [])
        "total_grade" .vnone = .vint 1 ∧
      dget (flatten_results_to_row
        ([] ++ [("exercise_id", PyVal.vstr "1"), ("grade", PyVal.vstr "abc")] ::
          [[("exercise_id", PyVal.vstr "2"), ("grade", PyVal.vint 1)]]) [])
        "ex_1_grade" .vnone = PyVal.vstr "abc") ∧
    dget (flatten_results_to_row
        ([] ++ [("exercise_id", PyVal.vstr "1"), ("grade", PyVal.vstr "abc")] ::
          [[("exercise_id", PyVal.vstr "2"), ("grade", PyVal.vint 1)]]) [])
      (exGradeKey [("exercise_id", PyVal.vstr "1"), ("grade", PyVal.vstr "abc")])
      .vnone = exGrade [("exercise_id", PyVal.vstr "1"), ("grade", PyVal.vstr "abc")] :=
  ⟨⟨by decide, by decide, by decide⟩,
   (claim_C9 [] [[("exercise_id", PyVal.vstr "2"), ("grade", PyVal.vint 1)]]
     [("exercise_id", PyVal.vstr "1"), ("grade", PyVal.vstr "abc")] []
     (by decide) (by decide)).2.2.2⟩

/-! ### The string order and the sort -/

theorem lexLeCh_total : ∀ a b : List Char, lexLeCh a b = true ∨ lexLeCh b a = true
  | [], _ => Or.inl rfl
  | _ :: _, [] => Or.inr rfl
  | c :: cs, d :: ds => by
    rcases Nat.lt_trichotomy c.toNat d.toNat with h | h | h
    · left
      simp [lexLeCh, h]
    · rcases lexLeCh_total cs ds with ih | ih
      · left
        simp [lexLeCh, h, ih]
      · right
        simp [lexLeCh, h.symm, ih]
    · right
      simp [lexLeCh, h]

theorem lexLeCh_trans : ∀ a b c : List Char, lexLeCh a b = true → lexLeCh b c = true →
    lexLeCh a c = true
  | [], _, _, _, _ => rfl
  | _ :: _, [], _, hab, _ => by simp [lexLeCh] at hab
  | _ :: _, _ :: _, [], _, hbc => by simp [lexLeCh] at hbc
  | x :: xs, y :: ys, z :: zs, hab, hbc => by
    simp only [lexLeCh] at hab hbc ⊢
    rcases Nat.lt_trichotomy x.toNat y.toNat with h₁ | h₁ | h₁
    · rcases Nat.lt_trichotomy y.toNat z.toNat with h₂ | h₂ | h₂
      · simp [Nat.lt_trans h₁ h₂]
      · simp [h₂ ▸ h₁]
      · simp [Nat.lt_asymm h₂, h₂] at hbc
    · simp only [h₁, lt_self_iff_false, if_false] at hab
      rcases Nat.lt_trichotomy y.toNat z.toNat with h₂ | h₂ | h₂
      · simp [h₁ ▸ h₂]
      · simp only [h₁, h₂, lt_self_iff_false, if_false] at hbc ⊢
        exact lexLeCh_trans xs ys zs hab hbc
      · simp [Nat.lt_asymm h₂, h₂] at hbc
    · simp [Nat.lt_asymm h₁, h₁] at hab

theorem strLe_total (a b : String) : strLe a b = true ∨ strLe b a = true :=
  lexLeCh_total a.data b.data

theorem strLe_trans {a b c : String} (h₁ : strLe a b = true) (h₂ : strLe b c = true) :
    strLe a c = true :=
  lexLeCh_trans a.data b.data c.data h₁ h₂

theorem mem_insertSorted : ∀ (x : String) (l : List String) (c : String),
    c ∈ insertSorted x l ↔ c = x ∨ c ∈ l
  | _, [], c => by simp [insertSorted]
  | x, y :: ys, c => by
    by_cases h : strLe x y = true
    · simp [insertSorted, h]
    · simp only [insertSorted, if_neg h, List.mem_cons, mem_insertSorted x ys c]
      tauto

theorem pairwise_insertSorted (x : String) : ∀ l : List String,
    l.Pairwise (fun a b => strLe a b = true) →
    (insertSorted x l).Pairwise (fun a b => strLe a b = true)
  | [], _ => by simp [insertSorted]
  | y :: ys, hp => by
    rcases List.pairwise_cons.mp hp with ⟨hy, hys⟩
    by_cases h : strLe x y = true
    · rw [insertSorted, if_pos h]
      refine List.pairwise_cons.mpr ⟨?_, hp⟩
      intro b hb
      rcases List.mem_cons.mp hb with rfl | hb
      · exact h
      · exact strLe_trans h (hy b hb)
    · rw [insertSorted, if_neg h]
      refine List.pairwise_cons.mpr ⟨?_, pairwise_insertSorted x ys hys⟩
      intro b hb
      rcases (mem_insertSorted x ys b).mp hb with hbx | hb
      · rw [hbx]
        rcases strLe_total x y with h2 | h2
        · exact absurd h2 h
        · exact h2
      · exact hy b hb

theorem pairwise_sortStrings : ∀ l : List String,
    (sortStrings l).Pairwise (fun a b => strLe a b = true)
  | [] => List.Pairwise.nil
  | x :: xs => pairwise_insertSorted x (sortStrings xs) (pairwise_sortStrings xs)

theorem mem_sortStrings : ∀ (l : List String) (c : String), c ∈ sortStrings l ↔ c ∈ l
  | [], _ => Iff.rfl
  | x :: xs, c => by
    rw [show sortStrings (x :: xs) = insertSorted x (sortStrings xs) from rfl,
      mem_insertSorted, mem_sortStrings xs c]
    simp

/-! ### Claim C5 -/

/-- Membership in the extension-by-extension accumulation loop of
`scan_folder`. -/
theorem mem_scanAccum : ∀ (exts acc fs : List String) (p : String),
    p ∈ exts.foldl (fun acc ext => acc ++ globMatches fs ext) acc ↔
      p ∈ acc ∨ ∃ ext ∈ exts, p ∈ globMatches fs ext
  | [], acc, fs, p => by simp
  | e :: es, acc, fs, p => by
    simp only [List.foldl_cons]
    rw [mem_scanAccum es _ fs p]
    simp only [List.mem_append, List.mem_cons]
    constructor
    · rintro (⟨hp | hp⟩ | ⟨ext, hext, hp⟩)
      · exact Or.inl hp
      · exact Or.inr ⟨e, Or.inl rfl, hp⟩
      · exact Or.inr ⟨ext, Or.inr hext, hp⟩
    · rintro (hp | ⟨ext, (rfl | hext), hp⟩)
      · exact Or.inl (Or.inl hp)
      · exact Or.inl (Or.inr hp)
      · exact Or.inr ⟨ext, hext, hp⟩

/-- **C5.** `scan_folder` returns the matching files in sorted order and
matches extensions case-insensitively; on a directory containing `a.pdf`,
`b.PY`, `c.txt`, `d.jpg` the filter `".pdf, .py"` returns exactly
`[a.pdf, b.PY]`. -/
theorem claim_C5 (fs : List String) (extFilter : String) :
    (scan_folder fs extFilter).Pairwise (fun a b => strLe a b = true) ∧
    (∀ p, p ∈ scan_folder fs extFilter ↔
      p ∈ fs ∧ ∃ ext ∈ parseExtensions extFilter,
        (!(strStarts (basename p) ".") &&
          strEnds (lowerStr (basename p)) (lowerStr ext)) = true) ∧
    scan_folder ["a.pdf", "b.PY", "c.txt", "d.jpg"] ".pdf, .py" =
      ["a.pdf", "b.PY"] := by
  refine ⟨pairwise_sortStrings _, ?_, by decide⟩
  intro p
  rw [scan_folder, mem_sortStrings, mem_scanAccum]
  simp only [List.not_mem_nil, false_or, globMatches, List.mem_filter]
  constructor
  · rintro ⟨ext, hext, hp, hm⟩
    exact ⟨hp, ext, hext, hm⟩
  · rintro ⟨hp, ext, hext, hm⟩
    exact ⟨ext, hext, hp, hm⟩

/-- **C5 witness**: the scenario instantiation, plus the membership equivalence
applied to the matched file `b.PY` (case-insensitive `.py` match). -/
theorem claim_C5_witness :
    scan_folder ["a.pdf", "b.PY", "c.txt", "d.jpg"] ".pdf, .py" =
      ["a.pdf", "b.PY"] ∧
    "b.PY" ∈ scan_folder ["a.pdf", "b.PY", "c.txt", "d.jpg"] ".pdf, .py" :=
  ⟨(claim_C5 ["a.pdf", "b.PY", "c.txt", "d.jpg"] ".pdf, .py").2.2,
   ((claim_C5 ["a.pdf", "b.PY", "c.txt", "d.jpg"] ".pdf, .py").2.1 "b.PY").mpr
     (by decide)⟩

/-! ### Claim C6 -/

theorem mem_addCols : ∀ (ks acc : List String) (c : String),
    c ∈ addCols acc ks ↔ c ∈ acc ∨ c ∈ ks
  | [], acc, c => by simp [addCols]
  | k :: ks, acc, c => by
    by_cases h : k ∈ acc
    · rw [addCols, if_pos h, mem_addCols ks acc c]
      simp only [List.mem_cons]
      constructor
      · tauto
      · rintro (hc | rfl | hc)
        · exact Or.inl hc
        · exact Or.inl h
        · exact Or.inr hc
    · rw [addCols, if_neg h, mem_addCols ks _ c]
      simp only [List.mem_append, List.mem_singleton, List.mem_cons]
      tauto

theorem mem_dataframeColumnsAux : ∀ (rows : List Dict) (acc : List String) (c : String),
    c ∈ rows.foldl (fun acc row => addCols acc (dkeys row)) acc ↔
      c ∈ acc ∨ ∃ row ∈ rows, c ∈ dkeys row
  | [], acc, c => by simp
  | r :: rs, acc, c => by
    simp only [List.foldl_cons]
    rw [mem_dataframeColumnsAux rs _ c, mem_addCols]
    simp only [List.mem_cons]
    constructor
    · rintro (⟨hc | hc⟩ | ⟨row, hrow, hc⟩)
      · exact Or.inl hc
      · exact Or.inr ⟨r, Or.inl rfl, hc⟩
      · exact Or.inr ⟨row, Or.inr hrow, hc⟩
    · rintro (hc | ⟨row, (rfl | hrow), hc⟩)
      · exact Or.inl (Or.inl hc)
      · exact Or.inl (Or.inr hc)
      · exact Or.inr ⟨row, hrow, hc⟩

/-- A column is observed iff some row has it as a key. -/
theorem mem_dataframeColumns (rows : List Dict) (c : String) :
    c ∈ dataframeColumns rows ↔ ∃ row ∈ rows, c ∈ dkeys row := by
  have h := mem_dataframeColumnsAux rows [] c
  simpa [dataframeColumns] using h

/-- **C6.** The persisted CSV has one record per in-memory row, and its column
sequence is exactly the core columns present in the table (in their fixed
order) followed by all `ex_*` columns observed in any row, sorted, with no
other columns. -/
theorem claim_C6 (rows : List Dict) :
    (persistCsv rows).records.length = rows.length ∧
    (persistCsv rows).columns =
      (core_cols.filter fun c => c ∈ dataframeColumns rows) ++
        sortStrings ((dataframeColumns rows).filter fun c => strStarts c "ex_") ∧
    (∀ c, c ∈ dataframeColumns rows ↔ ∃ row ∈ rows, c ∈ dkeys row) ∧
    (∀ c, c ∈ (persistCsv rows).columns → c ∈ core_cols ∨ strStarts c "ex_" = true) ∧
    (∀ c, strStarts c "ex_" = true → (∃ row ∈ rows, c ∈ dkeys row) →
      c ∈ (persistCsv rows).columns) ∧
    (sortStrings ((dataframeColumns rows).filter fun c => strStarts c "ex_")).Pairwise
      (fun a b => strLe a b = true) := by
  refine ⟨by simp [persistCsv], rfl, mem_dataframeColumns rows, ?_, ?_,
    pairwise_sortStrings _⟩
  · intro c hc
    rcases List.mem_append.mp hc with h | h
    · exact Or.inl (List.mem_filter.mp h).1
    · exact Or.inr (List.mem_filter.mp ((mem_sortStrings _ _).mp h)).2
  · intro c hst hobs
    apply List.mem_append.mpr
    right
    rw [mem_sortStrings]
    exact List.mem_filter.mpr ⟨(mem_dataframeColumns rows c).mpr hobs, hst⟩

/-- **C6 witness**: two rows with interleaved dynamic keys; the persisted
columns are the present core columns followed by the sorted `ex_*` union, and
an observed `ex_*` key is a column. -/
theorem claim_C6_witness :
    (persistCsv [[("file_path", PyVal.vstr "a"), ("ex_2_grade", PyVal.vint 1)],
      [("ex_1_grade", PyVal.vint 0)]]).records.length = 2 ∧
    (persistCsv [[("file_path", PyVal.vstr "a"), ("ex_2_grade", PyVal.vint 1)],
      [("ex_1_grade", PyVal.vint 0)]]).columns =
      ["file_path", "ex_1_grade", "ex_2_grade"] ∧
    "ex_1_grade" ∈ (persistCsv [[("file_path", PyVal.vstr "a"),
      ("ex_2_grade", PyVal.vint 1)], [("ex_1_grade", PyVal.vint 0)]]).columns :=
  ⟨(claim_C6 [[("file_path", PyVal.vstr "a"), ("ex_2_grade", PyVal.vint 1)],
      [("ex_1_grade", PyVal.vint 0)]]).1,
   by decide,
   (claim_C6 [[("file_path", PyVal.vstr "a"), ("ex_2_grade", PyVal.vint 1)],
      [("ex_1_grade", PyVal.vint 0)]]).2.2.2.2.1 "ex_1_grade" (by decide)
     ⟨[("ex_1_grade", PyVal.vint 0)], by decide, by decide⟩⟩

/-! ### Claim C7 -/

/-- **C7.** With a credential and a rubric present, retrying a table that
contains no failed row is a no-op: the table is returned unchanged, the CSV is
not rewritten, no grading call happens, and the message is the explanatory
no-op text (for an empty table, the empty-table text). -/
theorem claim_C7 (api_key problem ts : String) (results : List Dict) (csvOk : Bool)
    (grade : String → GradeOutcome)
    (hk : ¬ api_key = "") (hp : ¬ pyStrip problem = "")
    (hnf : ∀ row ∈ results, isFailedRow row = false) :
    (retry_all_failed api_key problem results csvOk grade ts).table = results ∧
    (retry_all_failed api_key problem results csvOk grade ts).persisted = false ∧
    (retry_all_failed api_key problem results csvOk grade ts).gradingCalls = 0 ∧
    ((retry_all_failed api_key problem results csvOk grade ts).message =
        "No results to retry." ∨
      (retry_all_failed api_key problem results csvOk grade ts).message =
        "No failed submissions to retry.") := by
  have hfail : ((List.range results.length).filter fun i =>
      match results[i]? with
      | some row => isFailedRow row
      | Option.none => false) = [] := by
    rw [List.filter_eq_nil_iff]
    intro i hi
    rw [List.mem_range] at hi
    rw [List.getElem?_eq_getElem hi]
    simp only [hnf results[i] (List.getElem_mem hi)]
    exact Bool.false_ne_true
  rw [retry_all_failed]
  by_cases hres : results.isEmpty = true
  · rw [if_neg hk, if_neg hp, if_pos hres]
    exact ⟨rfl, rfl, rfl, Or.inl rfl⟩
  · rw [if_neg hk, if_neg hp, if_neg hres]
    simp [hfail]

/-- **C7 witness**: a one-row table whose row has `status = "success"`. -/
theorem claim_C7_witness :
    (retry_all_failed "k" "p" [[("status", PyVal.vstr "success")]] true
        (fun _ => .failure "e") "t").table = [[("status", PyVal.vstr "success")]] ∧
    (retry_all_failed "k" "p" [[("status", PyVal.vstr "success")]] true
        (fun _ => .failure "e") "t").persisted = false ∧
    (retry_all_failed "k" "p" [[("status", PyVal.vstr "success")]] true
        (fun _ => .failure "e") "t").gradingCalls = 0 ∧
    ((retry_all_failed "k" "p" [[("status", PyVal.vstr "success")]] true
          (fun _ => .failure "e") "t").message = "No results to retry." ∨
      (retry_all_failed "k" "p" [[("status", PyVal.vstr "success")]] true
          (fun _ => .failure "e") "t").message = "No failed submissions to retry.") :=
  claim_C7 "k" "p" "t" [[("status", PyVal.vstr "success")]] true
    (fun _ => .failure "e") (by decide) (by decide) (by decide)

/-! ### Claim C8 -/

/-- **C8.** When the root directory does not exist, the scanning entry fails
with the invalid-directory message instead of returning any listing (in
particular, not an empty one). -/
theorem claim_C8 (existing fs : List String) (folder_path extFilter : String)
    (h : folder_path ∉ existing) :
    scanSubmissions existing fs folder_path extFilter =
      .invalidDirectory "Please provide a valid folder path for submissions" ∧
    ∀ l, scanSubmissions existing fs folder_path extFilter ≠ .listing l := by
  have he : scanSubmissions existing fs folder_path extFilter =
      .invalidDirectory "Please provide a valid folder path for submissions" := by
    rw [scanSubmissions, if_pos (Or.inr h)]
  refine ⟨he, fun l hl => ?_⟩
  rw [he] at hl
  exact ScanOutcome.noConfusion hl

/-- **C8 witness**: a filesystem with no directories and the root `missing`. -/
theorem claim_C8_witness :
    scanSubmissions [] ["missing/a.py"] "missing" ".py" =
      .invalidDirectory "Please provide a valid folder path for submissions" ∧
    ∀ l, scanSubmissions [] ["missing/a.py"] "missing" ".py" ≠ .listing l :=
  claim_C8 [] ["missing/a.py"] "missing" ".py" (by decide)

/-! ### Claim C10 -/

/-- A map that fixes every element of a list is the identity on it. -/
theorem map_id_of (l : List Char) (f : Char → Char) (hf : ∀ c ∈ l, f c = c) :
    l.map f = l := by
  induction l with
  | nil => rfl
  | cons c cs ih =>
    rw [List.map_cons, hf c (List.mem_cons_self c cs),
      ih fun d hd => hf d (List.mem_cons_of_mem c hd)]

/-- A string of non-space ASCII characters is a fixed point of
`normalize_name`. -/
theorem normalize_name_fixed (nfd : Char → List Char)
    (h : ∀ c, c.toNat < 128 → nfd c = [c]) (t : String)
    (ht : ∀ c ∈ t.data, c.toNat < 128 ∧ c ≠ ' ') : normalize_name nfd t = t := by
  have h₁ : t.data.map (fun c => if c = 'Đ' then 'D' else c) = t.data := by
    apply map_id_of
    intro c hc
    rw [if_neg]
    intro he
    rw [he] at hc
    exact absurd (ht _ hc).1 (by decide)
  have h₂ : t.data.map (fun c => if c = 'đ' then 'd' else c) = t.data := by
    apply map_id_of
    intro c hc
    rw [if_neg]
    intro he
    rw [he] at hc
    exact absurd (ht _ hc).1 (by decide)
  have h₃ : t.data.flatMap nfd = t.data := by
    have : ∀ l : List Char, (∀ c ∈ l, c.toNat < 128) → l.flatMap nfd = l := by
      intro l
      induction l with
      | nil => intro _; rfl
      | cons c cs ih =>
        intro hl
        rw [List.flatMap_cons, h c (hl c (List.mem_cons_self c cs)),
          ih fun d hd => hl d (List.mem_cons_of_mem c hd)]
        rfl
    exact this t.data fun c hc => (ht c hc).1
  have h₄ : t.data.filter (fun c => c.toNat < 128) = t.data :=
    List.filter_eq_self.mpr fun c hc => by
      simpa using (ht c hc).1
  have h₅ : t.data.map (fun c => if c = ' ' then '_' else c) = t.data := by
    apply map_id_of
    intro c hc
    exact if_neg (ht c hc).2
  rw [normalize_name]
  simp only [h₁, h₂, h₃, h₄, h₅]

/-- **C10.** `normalize_name` returns a string of ASCII characters with no
space character, and it is idempotent, for any decomposition map that fixes
ASCII characters (as Unicode NFD does — ASCII has no canonical
decompositions). -/
theorem claim_C10 (nfd : Char → List Char) (s : String)
    (h : ∀ c, c.toNat < 128 → nfd c = [c]) :
    (∀ c ∈ (normalize_name nfd s).data, c.toNat < 128 ∧ c ≠ ' ') ∧
    normalize_name nfd (normalize_name nfd s) = normalize_name nfd s := by
  have hout : ∀ c ∈ (normalize_name nfd s).data, c.toNat < 128 ∧ c ≠ ' ' := by
    intro c hc
    rw [normalize_name] at hc
    simp only [List.mem_map, List.mem_filter] at hc
    obtain ⟨d, ⟨_, hd⟩, hdc⟩ := hc
    by_cases hsp : d = ' '
    · rw [hsp] at hdc
      simp only [if_pos rfl] at hdc
      rw [← hdc]
      exact ⟨by decide, by decide⟩
    · rw [if_neg hsp] at hdc
      rw [← hdc]
      exact ⟨by simpa using hd, hsp⟩
  exact ⟨hout, normalize_name_fixed nfd h _ hout⟩

/-- Sample decomposition for the witness: `ỗ` decomposes into `o` followed by
the combining circumflex and tilde; everything else is left alone. -/
def sampleNfd (c : Char) : List Char :=
  if c = 'ỗ' then ['o', Char.ofNat 770, Char.ofNat 771] else [c]

/-- **C10 witness**: the sample decomposition fixes ASCII, and the Vietnamese
name `Đỗ An.docx` normalizes to the pure-ASCII, space-free `Do_An.docx`,
idempotently. -/
theorem claim_C10_witness :
    ((∀ c ∈ (normalize_name sampleNfd "Đỗ An.docx").data, c.toNat < 128 ∧ c ≠ ' ') ∧
      normalize_name sampleNfd (normalize_name sampleNfd "Đỗ An.docx") =
        normalize_name sampleNfd "Đỗ An.docx") ∧
    normalize_name sampleNfd "Đỗ An.docx" = "Do_An.docx" :=
  ⟨claim_C10 sampleNfd "Đỗ An.docx" (fun c hc => by
      have hne : ¬ c = 'ỗ' := by
        intro he
        rw [he] at hc
        exact absurd hc (by decide)
      rw [sampleNfd, if_neg hne]),
   by decide⟩

end AGS
